import Mathlib

/-
Verification of the kinact KSEA scoring engine (src/kinact/ksea.py and
src/kinact/networkin.py) against its natural-language specification.

Shallow embedding notes.
* A pandas Series is modelled by `Series`: an index (list of site identifiers,
  assumed unique, as produced by a pivot table) together with a value map into
  `Option ℚ`, where `none` models a NaN cell; `Series.get` guards lookups with
  index membership, so off-index lookups are NaN as in pandas reindexing.
* The kinase-substrate adjacency DataFrame is modelled by `Interactions`:
  a row index (sites), column labels (kinases) and a cell accessor; an absent
  cell (NaN) is `none`.
* numpy/scipy float special values are modelled exactly where the code can
  produce them: `NVal` is nan / +inf / -inf / a finite rational, and `ZVal`
  additionally keeps the square root symbolic: `ZVal.fin c r` denotes
  c * sqrt r (r ≥ 0 in every construction), so that all pipeline values stay
  exactly representable.
* `scipy.stats.norm.sf` on a finite argument is transcendental; it is taken
  as a parameter `sf : ℚ → ℚ → ℚ` (applied to the coefficient and radicand of
  the finite z-value, denoting the survival function at c * sqrt r), while its
  exact values at ±inf and nan (0, 1, nan) are built in via `zsf`.
* `statsmodels.multipletests(..., method = fdr_bh)` on a nonempty array is
  `bhAdjust`: argsort the p-values (NaN sorting last, as in numpy), divide by
  the ECDF factor i/m, take the reverse running minimum (`np.minimum`
  propagates NaN), clip at 1 and restore the original order.  The sorting
  algorithm used for argsort is immaterial to the result, so a structural
  insertion sort is used.  On an EMPTY p-value array the library raises
  ZeroDivisionError (it computes 1./ntests before dispatching on the method);
  `multipletests` models the fallible call, with `none` for the raise.
-/

namespace Kinact

/-- A numpy/pandas float value: NaN, plus or minus infinity, or a finite
rational. -/
inductive NVal : Type where
  | nan : NVal
  | pinf : NVal
  | ninf : NVal
  | fin (q : ℚ) : NVal
deriving DecidableEq, Repr

/-- A z-statistic value; `fin c r` denotes `c * Real.sqrt r` (the radicand `r`
is nonnegative in every construction below), keeping `sqrt` symbolic so the
pipeline stays in exact arithmetic. -/
inductive ZVal : Type where
  | nan : ZVal
  | pinf : ZVal
  | ninf : ZVal
  | fin (c : ℚ) (r : ℚ) : ZVal
deriving DecidableEq, Repr

/-- Real denotation of a z-statistic; the non-finite values are mapped to a
junk value 0 and are always ruled out by hypotheses when this is used. -/
noncomputable def ZVal.toReal : ZVal → ℝ
  | .fin c r => (c : ℝ) * Real.sqrt (r : ℝ)
  | _ => 0

/-- A pandas Series: an index of site identifiers together with cell values;
`none` models a NaN cell. -/
structure Series : Type where
  idx : List String
  val : String → Option ℚ

/-- Series lookup: sites outside the index read as NaN (pandas reindexing
semantics). -/
def Series.get (d : Series) (s : String) : Option ℚ :=
  if d.idx.contains s then d.val s else none

/-- The kinase-substrate adjacency DataFrame: row index (sites), column
labels (kinases), and the cell accessor `w kinase site` (`none` is NaN). -/
structure Interactions : Type where
  sites : List String
  kinases : List String
  w : String → String → Option ℚ

/-- `interactions[kinase].replace(0, np.nan).dropna()` retains a cell exactly
when it is present and nonzero. -/
def wNZ : Option ℚ → Bool
  | none => false
  | some q => decide (q ≠ 0)

/-- Sequence a list of optional values; `none` if any entry is missing
(numpy aggregation of a NaN-containing array is NaN). -/
def seqOption : List (Option ℚ) → Option (List ℚ)
  | [] => some []
  | none :: _ => none
  | some q :: rest => (seqOption rest).map (fun vs => q :: vs)

/-- `np.mean`: NaN on an empty list and on any list containing NaN. -/
def npMean (l : List (Option ℚ)) : Option ℚ :=
  match seqOption l with
  | none => none
  | some [] => none
  | some vs => some (vs.sum / vs.length)

/-- Insertion step for the structural sort. -/
def insertBy {α : Type} (le : α → α → Bool) (a : α) : List α → List α
  | [] => [a]
  | b :: bs => if le a b then a :: b :: bs else b :: insertBy le a bs

/-- Structural insertion sort (models the argsort inside `np.median` and
`multipletests`; the choice of sorting algorithm does not affect any value
computed from the sorted output). -/
def sortBy {α : Type} (le : α → α → Bool) : List α → List α
  | [] => []
  | a :: as => insertBy le a (sortBy le as)

/-- `np.median`: NaN on an empty list and on any list containing NaN;
otherwise the middle element of the sorted values (mean of the two middle
elements for even length). -/
def npMedian (l : List (Option ℚ)) : Option ℚ :=
  match seqOption l with
  | none => none
  | some [] => none
  | some vs =>
      let s := sortBy (fun a b => decide (a ≤ b)) vs
      let n := vs.length
      if n % 2 = 1 then some (s.getD (n / 2) 0)
      else some ((s.getD (n / 2 - 1) 0 + s.getD (n / 2) 0) / 2)

/-- numpy division of finite floats, `a / b`: finite for `b ≠ 0`; for `b = 0`
it is NaN when `a = 0` and a signed infinity otherwise. -/
def ndiv (a b : ℚ) : NVal :=
  if b = 0 then
    if a = 0 then .nan else if 0 < a then .pinf else .ninf
  else .fin (a / b)

/-- numpy evaluation of `(c * sqrt r) / delta` for finite `c`, `delta` and
`r ≥ 0`: finite for `delta ≠ 0`; for `delta = 0` it is NaN when the numerator
is zero and a signed infinity otherwise. -/
def zdiv (c r delta : ℚ) : ZVal :=
  if delta = 0 then
    if c = 0 ∨ r = 0 then .nan
    else if 0 < c then .pinf else .ninf
  else .fin (c / delta) r

/-- Absolute value of a z-statistic (`abs(c * sqrt r) = abs c * sqrt r` for
`r ≥ 0`; `abs` of an infinity is `+inf`, of NaN is NaN). -/
def ZVal.zabs : ZVal → ZVal
  | .nan => .nan
  | .pinf => .pinf
  | .ninf => .pinf
  | .fin c r => .fin |c| r

/-- `scipy.stats.norm.sf` applied to a z-statistic: 0 at `+inf`, 1 at `-inf`,
NaN at NaN, and the abstract survival-function parameter `sf` on the finite
representation (denoting the survival function at `c * sqrt r`). -/
def zsf (sf : ℚ → ℚ → ℚ) : ZVal → NVal
  | .nan => .nan
  | .pinf => .fin 0
  | .ninf => .fin 1
  | .fin c r => .fin (sf c r)

/-- `scipy.stats.hypergeom(M, K, N).pmf k`: NaN when the parameters are
inconsistent (`K > M` or `N > M`); otherwise the hypergeometric point mass,
which is 0 outside the support (the `k ≤ N` guard covers the upper support
bound exactly as scipy returns 0 there). -/
def hypergeomPmf (M K N k : ℕ) : NVal :=
  if K ≤ M ∧ N ≤ M then
    .fin (if k ≤ N then (K.choose k * (M - K).choose (N - k) : ℚ) / (M.choose N) else 0)
  else .nan

/-- `np.minimum`: propagates NaN, otherwise the usual minimum with the
infinities at the ends. -/
def nmin : NVal → NVal → NVal
  | .nan, _ => .nan
  | _, .nan => .nan
  | .ninf, _ => .ninf
  | _, .ninf => .ninf
  | .pinf, b => b
  | a, .pinf => a
  | .fin a, .fin b => .fin (min a b)

/-- Multiplication of a p-value by a positive rational factor (the BH `m/i`
factor): infinities and NaN are fixed points. -/
def nmulPos (v : NVal) (q : ℚ) : NVal :=
  match v with
  | .nan => .nan
  | .pinf => .pinf
  | .ninf => .ninf
  | .fin c => .fin (c * q)

/-- The clip test `p > 1` (false at NaN, as in numpy comparisons). -/
def ngt1 : NVal → Bool
  | .nan => false
  | .pinf => true
  | .ninf => false
  | .fin c => decide (1 < c)

/-- Comparison used by argsort over p-values: `-inf < fin < +inf < NaN`
(numpy argsort places NaN last). -/
def NVal.leB : NVal → NVal → Bool
  | _, .nan => true
  | .nan, _ => false
  | .ninf, _ => true
  | _, .ninf => false
  | .fin a, .fin b => decide (a ≤ b)
  | .fin _, .pinf => true
  | .pinf, .fin _ => false
  | .pinf, .pinf => true

/-- Pair every list element with its position. -/
def withIdx {α : Type} (i : ℕ) : List α → List (ℕ × α)
  | [] => []
  | a :: as => (i, a) :: withIdx (i + 1) as

/-- `np.minimum.accumulate` applied from the right: entry `i` of the result is
the `nmin`-fold of entries `i, i+1, ...` of the input. -/
def accMinRev : List NVal → List NVal
  | [] => []
  | v :: vs =>
      match accMinRev vs with
      | [] => [v]
      | w :: ws => nmin v w :: w :: ws

/-- `multipletests(p, method = fdr_bh)` adjusted p-values for a NONEMPTY
p-value array: argsort ascending (NaN last), divide the sorted values by the
ECDF factor `i/m`, take the reverse running minimum, clip at 1, and write back
in original order.  (The library raises on an empty array before reaching this
computation; see `multipletests`.) -/
def bhAdjust (ps : List NVal) : List NVal :=
  let m := ps.length
  let sorted := sortBy (fun a b => NVal.leB a.2 b.2) (withIdx 0 ps)
  let corr := (withIdx 0 sorted).map (fun p => nmulPos p.2.2 ((m : ℚ) / ((p.1 : ℚ) + 1)))
  let clipped := (accMinRev corr).map (fun v => if ngt1 v then NVal.fin 1 else v)
  (sortBy (fun a b => decide (a.1 ≤ b.1)) ((sorted.map (·.1)).zip clipped)).map (·.2)

/-- Attach the BH-adjusted p-values back to their kinase keys, as
`pd.Series(multipletests(p_value, ...)[1], index = p_value.index)` does, for
a call that returns (see `multipletests` for the empty error path). -/
def adjustPairs (pv : List (String × NVal)) : List (String × NVal) :=
  (pv.map (·.1)).zip (bhAdjust (pv.map (·.2)))

/-- ksea.py intersection step:
`set(interactions[kinase].replace(0, np.nan).dropna().index).intersection(data_fc.index)`
— the sites with a present, nonzero weight for `kinase` that are also in the
observation index (NaN-valued observation cells still count, as only index
membership is tested). -/
def intersectK (data : Series) (G : Interactions) (k : String) : List String :=
  G.sites.filter (fun s => wNZ (G.w k s) && data.idx.contains s)

/-- ksea.py kinase filter: keep kinases with
`len(intersect[kinase]) > minimum_set_size` (strictly greater). -/
def kseaKinases (data : Series) (G : Interactions) (ms : ℕ) : List String :=
  G.kinases.filter (fun k => decide (ms < (intersectK data G k).length))

/-- The estimator selected by the `median` flag of `ksea_mean` /
`ksea_mean_alt`. -/
def kseaEst (median : Bool) (l : List (Option ℚ)) : Option ℚ :=
  if median then npMedian l else npMean l

/-- `ksea_mean` per-kinase score: `np.mean([data_fc.ix[intersect[kinase]]])`
(or `np.median`), NaN when any value of the substrate set is missing. -/
def kseaScore (data : Series) (G : Interactions) (median : Bool) (k : String) : Option ℚ :=
  kseaEst median ((intersectK data G k).map data.get)

/-- `ksea_mean` per-kinase z-statistic:
`abs((score - mean_all) * np.sqrt(len(intersect[kinase])) * 1 / sd_all)`. -/
def kseaZ (data : Series) (G : Interactions) (mP delta : ℚ) (median : Bool) (k : String) :
    ZVal :=
  match kseaScore data G median k with
  | none => ZVal.nan
  | some m => ZVal.zabs (zdiv (m - mP) ((intersectK data G k).length : ℚ) delta)

/-- The `ksea_mean` score Series after `dropna` (kinases with a NaN score are
silently removed). -/
def kseaScoresList (data : Series) (G : Interactions) (ms : ℕ) (median : Bool) :
    List (String × ℚ) :=
  (kseaKinases data G ms).filterMap
    (fun k => (kseaScore data G median k).map (fun q => (k, q)))

/-- The `ksea_mean` z-score Series after `dropna` (which removes NaN entries
but keeps infinite ones). -/
def kseaZPairs (data : Series) (G : Interactions) (mP delta : ℚ) (ms : ℕ)
    (median : Bool) : List (String × ZVal) :=
  ((kseaKinases data G ms).map (fun k => (k, kseaZ data G mP delta median k))).filter
    (fun p => decide (p.2 ≠ ZVal.nan))

/-- The `ksea_mean` raw p-value Series `pd.Series(norm.sf(z_scores), ...)`. -/
def kseaRawP (data : Series) (G : Interactions) (mP delta : ℚ) (ms : ℕ) (median : Bool)
    (sf : ℚ → ℚ → ℚ) : List (String × NVal) :=
  (kseaZPairs data G mP delta ms median).map (fun p => (p.1, zsf sf p.2))

/-- `ksea_mean` (ksea.py): returns the score Series (after `dropna`) and the
Benjamini-Hochberg-adjusted p-value Series computed from the z-statistics. -/
def ksea_mean (data : Series) (G : Interactions) (mP delta : ℚ) (ms : ℕ) (median : Bool)
    (sf : ℚ → ℚ → ℚ) : List (String × ℚ) × List (String × NVal) :=
  (kseaScoresList data G ms median, adjustPairs (kseaRawP data G mP delta ms median sf))

/-- Significance test of a site against the cutoff:
`p_values.ix[...] > cut_off`, false when the transformed p-value is missing. -/
def sigB (pvs : Series) (cutoff : ℚ) (s : String) : Bool :=
  match pvs.get s with
  | some q => decide (cutoff < q)
  | none => false

/-- `ksea_delta` population size `n_total = len(data_fc.dropna())`. -/
def nTotal (data : Series) : ℕ :=
  (data.idx.filter (fun s => (data.val s).isSome)).length

/-- `ksea_delta` count of globally significantly regulated sites
`n_reg = len(np.where(p_values.ix[interactions.index.tolist()].dropna() > cut_off)[0])`. -/
def nReg (pvs : Series) (G : Interactions) (cutoff : ℚ) : ℕ :=
  (G.sites.filter (fun s => sigB pvs cutoff s)).length

/-- `ksea_delta` per-kinase score: significantly up-regulated minus
significantly down-regulated substrate sites. -/
def deltaScore (data pvs : Series) (G : Interactions) (cutoff : ℚ) (k : String) : ℤ :=
  (((intersectK data G k).countP
      (fun s => ((data.get s).elim false (fun v => decide (0 < v))) && sigB pvs cutoff s) : ℤ)
    - ((intersectK data G k).countP
      (fun s => ((data.get s).elim false (fun v => decide (v < 0))) && sigB pvs cutoff s) : ℤ))

/-- `ksea_delta` per-kinase count of significantly regulated qualifying sites
`len(np.where(p_values.ix[intersect[kinase]] > cut_off)[0])`. -/
def kSig (data pvs : Series) (G : Interactions) (cutoff : ℚ) (k : String) : ℕ :=
  (intersectK data G k).countP (sigB pvs cutoff)

/-- `ksea_delta` per-kinase raw p-value:
`hypergeom(n_total, len(intersect[kinase]), n_reg).pmf(count)` for a positive
count of significantly regulated qualifying sites, else 1. -/
def deltaP (data pvs : Series) (G : Interactions) (cutoff : ℚ) (k : String) : NVal :=
  if 0 < kSig data pvs G cutoff k then
    hypergeomPmf (nTotal data) (intersectK data G k).length (nReg pvs G cutoff)
      (kSig data pvs G cutoff k)
  else .fin 1

/-- The `ksea_delta` raw p-value Series. -/
def deltaRawP (data pvs : Series) (G : Interactions) (cutoff : ℚ) (ms : ℕ) :
    List (String × NVal) :=
  (kseaKinases data G ms).map (fun k => (k, deltaP data pvs G cutoff k))

/-- `ksea_delta` (ksea.py): hypergeometric regime; returns the delta scores
and the Benjamini-Hochberg-adjusted p-values (no `dropna` on either). -/
def ksea_delta (data pvs : Series) (G : Interactions) (cutoff : ℚ) (ms : ℕ) :
    List (String × ℤ) × List (String × NVal) :=
  ((kseaKinases data G ms).map (fun k => (k, deltaScore data pvs G cutoff k)),
    adjustPairs (deltaRawP data pvs G cutoff ms))

/-- `ksea_mean_alt` reduced substrate set:
`data_fc.ix[intersect[kinase]].where(p_values.ix[intersect[kinase]] > cut_off).dropna()`
— the qualifying sites that are significant and have a present observation
value. -/
def reducedSet (data pvs : Series) (G : Interactions) (cutoff : ℚ) (k : String) :
    List String :=
  (intersectK data G k).filter (fun s => sigB pvs cutoff s && (data.get s).isSome)

/-- `ksea_mean_alt` per-kinase score: mean (or median) of the reduced
substrate set, NaN exactly when that set is empty. -/
def kseaAltScore (data pvs : Series) (G : Interactions) (cutoff : ℚ) (median : Bool)
    (k : String) : Option ℚ :=
  kseaEst median ((reducedSet data pvs G cutoff k).map data.get)

/-- `ksea_mean_alt` per-kinase z-statistic, using the size of the reduced
substrate set under the square root. -/
def kseaAltZ (data pvs : Series) (G : Interactions) (mP delta cutoff : ℚ) (median : Bool)
    (k : String) : ZVal :=
  match kseaAltScore data pvs G cutoff median k with
  | none => ZVal.nan
  | some m =>
      ZVal.zabs (zdiv (m - mP) ((reducedSet data pvs G cutoff k).length : ℚ) delta)

/-- The `ksea_mean_alt` score Series after `dropna`. -/
def altScoresList (data pvs : Series) (G : Interactions) (cutoff : ℚ) (ms : ℕ)
    (median : Bool) : List (String × ℚ) :=
  (kseaKinases data G ms).filterMap
    (fun k => (kseaAltScore data pvs G cutoff median k).map (fun q => (k, q)))

/-- The `ksea_mean_alt` z-score Series after `dropna`. -/
def altZPairs (data pvs : Series) (G : Interactions) (mP delta cutoff : ℚ) (ms : ℕ)
    (median : Bool) : List (String × ZVal) :=
  ((kseaKinases data G ms).map
    (fun k => (k, kseaAltZ data pvs G mP delta cutoff median k))).filter
    (fun p => decide (p.2 ≠ ZVal.nan))

/-- The `ksea_mean_alt` raw p-value Series. -/
def altRawP (data pvs : Series) (G : Interactions) (mP delta cutoff : ℚ) (ms : ℕ)
    (median : Bool) (sf : ℚ → ℚ → ℚ) : List (String × NVal) :=
  (altZPairs data pvs G mP delta cutoff ms median).map (fun p => (p.1, zsf sf p.2))

/-- `ksea_mean_alt` (ksea.py): like `ksea_mean` but restricted to the
significant subset of each substrate set. -/
def ksea_mean_alt (data pvs : Series) (G : Interactions) (mP delta cutoff : ℚ) (ms : ℕ)
    (median : Bool) (sf : ℚ → ℚ → ℚ) : List (String × ℚ) × List (String × NVal) :=
  (altScoresList data pvs G cutoff ms median,
    adjustPairs (altRawP data pvs G mP delta cutoff ms median sf))

/-- networkin.py row reduction:
`interactions.ix[set(data_fc.index) ∩ set(interactions.index), :]`. -/
def obsRows (data : Series) (G : Interactions) : List String :=
  G.sites.filter (fun s => data.idx.contains s)

/-- networkin.py column filter: keep kinase columns with
`interactions_red.replace(0, np.nan).notnull().sum() >= minimum_set_size`. -/
def wmKinases (data : Series) (G : Interactions) (ms : ℕ) : List String :=
  G.kinases.filter (fun k => decide (ms ≤ (obsRows data G).countP (fun s => wNZ (G.w k s))))

/-- `weighted_mean` score numerator `(data_fc * interactions_red[kinase]).sum()`:
the aligned product is NaN unless both cells are present, and the pandas sum
skips NaN, i.e. adds 0 for such sites. -/
def wmNum (data : Series) (G : Interactions) (k : String) : ℚ :=
  ((obsRows data G).map (fun s =>
    match data.get s, G.w k s with
    | some v, some wt => v * wt
    | _, _ => 0)).sum

/-- `weighted_mean` score denominator
`interactions_red[kinase].replace(0, np.nan).dropna().sum()`: the (signed) sum
of the present nonzero weights over the observed rows. -/
def wmDen (data : Series) (G : Interactions) (k : String) : ℚ :=
  ((obsRows data G).filterMap (fun s =>
    (G.w k s).bind (fun wt => if wt = 0 then none else some wt))).sum

/-- `weighted_mean` per-kinase score: numerator over denominator with numpy
division-by-zero semantics (no exclusion of zero denominators). -/
def wmScore (data : Series) (G : Interactions) (k : String) : NVal :=
  ndiv (wmNum data G k) (wmDen data G k)

/-- numpy evaluation of `(inf * sqrt r) / delta` for an infinity of the given
sign (used when the weighted score is infinite): the sign flips for a negative
`delta`; division of an infinity by 0.0 keeps its sign. -/
def infDivZ (pos : Bool) (delta : ℚ) : ZVal :=
  if delta < 0 then (if pos then .ninf else .pinf)
  else (if pos then .pinf else .ninf)

/-- `weighted_mean` per-kinase z-statistic:
`(scores[kinase] - mP) * np.sqrt(abs(interactions_red[kinase].replace(0, np.nan).sum())) * 1 / delta`
— note: no absolute value around the whole expression, and the radicand is the
absolute value of the signed weight sum. -/
def wmZ (data : Series) (G : Interactions) (mP delta : ℚ) (k : String) : ZVal :=
  match wmScore data G k with
  | .nan => .nan
  | .pinf => if |wmDen data G k| = 0 then .nan else infDivZ true delta
  | .ninf => if |wmDen data G k| = 0 then .nan else infDivZ false delta
  | .fin s => zdiv (s - mP) |wmDen data G k| delta

/-- The `weighted_mean` raw p-value Series. -/
def wmRawP (data : Series) (G : Interactions) (mP delta : ℚ) (ms : ℕ)
    (sf : ℚ → ℚ → ℚ) : List (String × NVal) :=
  (wmKinases data G ms).map (fun k => (k, zsf sf (wmZ data G mP delta k)))

/-- `weighted_mean` (networkin.py): returns the weighted scores (no `dropna`)
and the Benjamini-Hochberg-adjusted p-values of the z-statistics. -/
def weighted_mean (data : Series) (G : Interactions) (mP delta : ℚ) (ms : ℕ)
    (sf : ℚ → ℚ → ℚ) : List (String × NVal) × List (String × NVal) :=
  ((wmKinases data G ms).map (fun k => (k, wmScore data G k)),
    adjustPairs (wmRawP data G mP delta ms sf))

/-! ## Structural lemmas about the embedding -/

theorem length_insertBy {α : Type} (le : α → α → Bool) (a : α) (l : List α) :
    (insertBy le a l).length = l.length + 1 := by
  induction l with
  | nil => rfl
  | cons b bs ih =>
      simp only [insertBy]
      by_cases h : le a b = true
      · simp [h]
      · simp [h, ih]

theorem length_sortBy {α : Type} (le : α → α → Bool) (l : List α) :
    (sortBy le l).length = l.length := by
  induction l with
  | nil => rfl
  | cons a as ih => simp [sortBy, length_insertBy, ih]

theorem length_accMinRev (l : List NVal) : (accMinRev l).length = l.length := by
  induction l with
  | nil => rfl
  | cons v vs ih =>
      simp only [accMinRev]
      cases h : accMinRev vs with
      | nil =>
          simp only [h, List.length_nil] at ih
          simp [← ih]
      | cons w ws =>
          simp only [h, List.length_cons] at ih
          simp [← ih]

theorem length_withIdx {α : Type} (i : ℕ) (l : List α) :
    (withIdx i l).length = l.length := by
  induction l generalizing i with
  | nil => rfl
  | cons a as ih => simp [withIdx, ih]

theorem length_bhAdjust (ps : List NVal) : (bhAdjust ps).length = ps.length := by
  simp [bhAdjust, length_sortBy, length_withIdx, length_accMinRev, List.length_zip]

theorem keys_adjustPairs (pv : List (String × NVal)) :
    (adjustPairs pv).map (·.1) = pv.map (·.1) := by
  unfold adjustPairs
  apply List.map_fst_zip
  simp [length_bhAdjust]

theorem length_adjustPairs (pv : List (String × NVal)) :
    (adjustPairs pv).length = pv.length := by
  have h := congrArg List.length (keys_adjustPairs pv)
  simpa using h

/-- Keys of a list built by mapping each element to a keyed pair. -/
theorem keys_map_pair {β : Type} (l : List String) (f : String → β) :
    ((l.map (fun k => (k, f k))).map (·.1)) = l := by
  induction l with
  | nil => rfl
  | cons a as ih => simp [ih]

/-- Membership in the keys of a `filterMap`-built keyed list. -/
theorem mem_keys_filterMap {β : Type} (l : List String) (f : String → Option β)
    (k : String) :
    (k ∈ (l.filterMap (fun x => (f x).map (fun q => (x, q)))).map (·.1)) ↔
      k ∈ l ∧ (f k).isSome := by
  induction l with
  | nil => simp
  | cons a as ih =>
      by_cases hk : k = a
      · subst hk
        cases h : f k with
        | none => simp [List.filterMap_cons, h, ih]
        | some b => simp [List.filterMap_cons, h]
      · cases h : f a with
        | none => simp [List.filterMap_cons, h, ih, hk]
        | some b => simp [List.filterMap_cons, h, ih, hk]

/-- Lookup in a list built by mapping each element to a keyed pair: duplicates
are harmless because every occurrence of a key carries the same value. -/
theorem lookup_map_pair {β : Type} (l : List String) (f : String → β) (k : String) :
    (l.map (fun x => (x, f x))).lookup k = if k ∈ l then some (f k) else none := by
  induction l with
  | nil => rfl
  | cons a as ih =>
      by_cases hk : k = a
      · subst hk
        simp [List.lookup_cons]
      · have hb : (k == a) = false := by simp [hk]
        simp [List.lookup_cons, hb, ih, hk]

/-- Lookup in a `filterMap`-built keyed list. -/
theorem lookup_filterMap_pair {β : Type} (l : List String) (f : String → Option β)
    (k : String) :
    (l.filterMap (fun x => (f x).map (fun q => (x, q)))).lookup k =
      if k ∈ l then f k else none := by
  induction l with
  | nil => rfl
  | cons a as ih =>
      by_cases hk : k = a
      · subst hk
        cases h : f k with
        | none =>
            simp only [List.filterMap_cons, h, Option.map_none']
            rw [ih]
            by_cases hm : k ∈ as <;> simp [hm, h]
        | some b => simp [List.filterMap_cons, h, List.lookup_cons]
      · cases h : f a with
        | none =>
            simp only [List.filterMap_cons, h, Option.map_none']
            rw [ih]
            simp [hk]
        | some b =>
            have hb : (k == a) = false := by simp [hk]
            simp [List.filterMap_cons, h, List.lookup_cons, hb, ih, hk]

/-- Keys of a `filterMap`-built keyed list as a filter of the base list. -/
theorem keys_filterMap_pair {β : Type} (l : List String) (f : String → Option β) :
    ((l.filterMap (fun x => (f x).map (fun q => (x, q)))).map (·.1)) =
      l.filter (fun x => (f x).isSome) := by
  induction l with
  | nil => rfl
  | cons a as ih =>
      cases h : f a with
      | none => simp [List.filterMap_cons, h, ih, List.filter_cons]
      | some b => simp [List.filterMap_cons, h, ih, List.filter_cons]

/-- Keys of a filtered map-built keyed list as a filter of the base list. -/
theorem keys_filter_map_pair {β : Type} (l : List String) (g : String → β)
    (q : β → Bool) :
    (((l.map (fun k => (k, g k))).filter (fun p => q p.2)).map (·.1)) =
      l.filter (fun k => q (g k)) := by
  induction l with
  | nil => rfl
  | cons a as ih =>
      cases h : q (g a) with
      | false => simp [List.filter_cons, h, ih]
      | true => simp [List.filter_cons, h, ih]

/-- Mapping the values of a keyed list leaves the keys unchanged. -/
theorem keys_map_snd {β γ : Type} (l : List (String × β)) (h : β → γ) :
    ((l.map (fun p => (p.1, h p.2))).map (·.1)) = l.map (·.1) := by
  induction l with
  | nil => rfl
  | cons a as ih => simp [ih]

/-- With a nonzero standard deviation, the `ksea_mean` z-statistic of a kinase
is NaN exactly when its score is. -/
theorem kseaZ_nan_iff (data : Series) (G : Interactions) (mP delta : ℚ) (median : Bool)
    (k : String) (hd : delta ≠ 0) :
    (decide (kseaZ data G mP delta median k ≠ ZVal.nan)) =
      (kseaScore data G median k).isSome := by
  cases h : kseaScore data G median k with
  | none => simp [kseaZ, h]
  | some m => simp [kseaZ, h, zdiv, hd, ZVal.zabs]

/-- With a nonzero standard deviation, the `ksea_mean_alt` z-statistic of a
kinase is NaN exactly when its score is. -/
theorem kseaAltZ_nan_iff (data pvs : Series) (G : Interactions) (mP delta cutoff : ℚ)
    (median : Bool) (k : String) (hd : delta ≠ 0) :
    (decide (kseaAltZ data pvs G mP delta cutoff median k ≠ ZVal.nan)) =
      (kseaAltScore data pvs G cutoff median k).isSome := by
  cases h : kseaAltScore data pvs G cutoff median k with
  | none => simp [kseaAltZ, h]
  | some m => simp [kseaAltZ, h, zdiv, hd, ZVal.zabs]

/-- Keys of the `ksea_mean` score mapping. -/
theorem keys_ksea_mean_scores (data : Series) (G : Interactions) (mP delta : ℚ) (ms : ℕ)
    (median : Bool) (sf : ℚ → ℚ → ℚ) :
    (ksea_mean data G mP delta ms median sf).1.map (·.1) =
      (kseaKinases data G ms).filter (fun k => (kseaScore data G median k).isSome) := by
  simp only [ksea_mean, kseaScoresList]
  exact keys_filterMap_pair _ _

/-- Keys of the `ksea_mean` adjusted p-value mapping. -/
theorem keys_ksea_mean_padj (data : Series) (G : Interactions) (mP delta : ℚ) (ms : ℕ)
    (median : Bool) (sf : ℚ → ℚ → ℚ) :
    (ksea_mean data G mP delta ms median sf).2.map (·.1) =
      (kseaKinases data G ms).filter
        (fun k => decide (kseaZ data G mP delta median k ≠ ZVal.nan)) := by
  simp only [ksea_mean, kseaRawP, kseaZPairs]
  rw [keys_adjustPairs, keys_map_snd]
  exact keys_filter_map_pair _ _ (fun z => decide (z ≠ ZVal.nan))

/-- Keys of the `ksea_mean_alt` score mapping. -/
theorem keys_ksea_alt_scores (data pvs : Series) (G : Interactions)
    (mP delta cutoff : ℚ) (ms : ℕ) (median : Bool) (sf : ℚ → ℚ → ℚ) :
    (ksea_mean_alt data pvs G mP delta cutoff ms median sf).1.map (·.1) =
      (kseaKinases data G ms).filter
        (fun k => (kseaAltScore data pvs G cutoff median k).isSome) := by
  simp only [ksea_mean_alt, altScoresList]
  exact keys_filterMap_pair _ _

/-- Keys of the `ksea_mean_alt` adjusted p-value mapping. -/
theorem keys_ksea_alt_padj (data pvs : Series) (G : Interactions) (mP delta cutoff : ℚ)
    (ms : ℕ) (median : Bool) (sf : ℚ → ℚ → ℚ) :
    (ksea_mean_alt data pvs G mP delta cutoff ms median sf).2.map (·.1) =
      (kseaKinases data G ms).filter
        (fun k => decide (kseaAltZ data pvs G mP delta cutoff median k ≠ ZVal.nan)) := by
  simp only [ksea_mean_alt, altRawP, altZPairs]
  rw [keys_adjustPairs, keys_map_snd]
  exact keys_filter_map_pair _ _ (fun z => decide (z ≠ ZVal.nan))

/-- Keys of both `ksea_delta` mappings are the filtered kinases. -/
theorem keys_ksea_delta (data pvs : Series) (G : Interactions) (cutoff : ℚ) (ms : ℕ) :
    (ksea_delta data pvs G cutoff ms).1.map (·.1) = kseaKinases data G ms ∧
    (ksea_delta data pvs G cutoff ms).2.map (·.1) = kseaKinases data G ms := by
  constructor
  · simp only [ksea_delta]
    exact keys_map_pair _ _
  · simp only [ksea_delta, deltaRawP]
    rw [keys_adjustPairs]
    exact keys_map_pair _ _

/-- Keys of both `weighted_mean` mappings are the retained kinase columns. -/
theorem keys_weighted_mean (data : Series) (G : Interactions) (mP delta : ℚ) (ms : ℕ)
    (sf : ℚ → ℚ → ℚ) :
    (weighted_mean data G mP delta ms sf).1.map (·.1) = wmKinases data G ms ∧
    (weighted_mean data G mP delta ms sf).2.map (·.1) = wmKinases data G ms := by
  constructor
  · simp only [weighted_mean]
    exact keys_map_pair _ _
  · simp only [weighted_mean, wmRawP]
    rw [keys_adjustPairs]
    exact keys_map_pair _ _

/-- C5: For every entry point and all valid inputs (a nonzero global standard
deviation for the z-test entry points), the returned score mapping and the
returned adjusted p-value mapping are keyed by exactly the same set of kinase
identifiers. -/
theorem claim_C5_same_key_sets (data pvs : Series) (G : Interactions)
    (mP delta cutoff : ℚ) (ms : ℕ) (median : Bool) (sf : ℚ → ℚ → ℚ)
    (hd : delta ≠ 0) :
    ((ksea_mean data G mP delta ms median sf).1.map (·.1) =
      (ksea_mean data G mP delta ms median sf).2.map (·.1)) ∧
    ((ksea_delta data pvs G cutoff ms).1.map (·.1) =
      (ksea_delta data pvs G cutoff ms).2.map (·.1)) ∧
    ((ksea_mean_alt data pvs G mP delta cutoff ms median sf).1.map (·.1) =
      (ksea_mean_alt data pvs G mP delta cutoff ms median sf).2.map (·.1)) ∧
    ((weighted_mean data G mP delta ms sf).1.map (·.1) =
      (weighted_mean data G mP delta ms sf).2.map (·.1)) := by
  refine ⟨?_, ?_, ?_, ?_⟩
  · rw [keys_ksea_mean_scores, keys_ksea_mean_padj]
    apply List.filter_congr
    intro k _
    exact (kseaZ_nan_iff data G mP delta median k hd).symm
  · rw [(keys_ksea_delta data pvs G cutoff ms).1, (keys_ksea_delta data pvs G cutoff ms).2]
  · rw [keys_ksea_alt_scores, keys_ksea_alt_padj]
    apply List.filter_congr
    intro k _
    exact (kseaAltZ_nan_iff data pvs G mP delta cutoff median k hd).symm
  · rw [(keys_weighted_mean data G mP delta ms sf).1,
      (keys_weighted_mean data G mP delta ms sf).2]

/-- C5 witness: the theorem applied at a concrete input. -/
theorem claim_C5_same_key_sets_witness :
    ((1 : ℚ) ≠ 0) ∧
    ((ksea_mean ⟨["s1"], fun _ => some 1⟩ ⟨["s1"], ["K"], fun _ _ => some 1⟩ 0 1 0 false
        (fun _ _ => 0)).1.map (·.1) =
      (ksea_mean ⟨["s1"], fun _ => some 1⟩ ⟨["s1"], ["K"], fun _ _ => some 1⟩ 0 1 0 false
        (fun _ _ => 0)).2.map (·.1)) :=
  ⟨by decide, (claim_C5_same_key_sets ⟨["s1"], fun _ => some 1⟩ ⟨["s1"], fun _ => some 1⟩
    ⟨["s1"], ["K"], fun _ _ => some 1⟩ 0 1 1 0 false (fun _ _ => 0) (by decide)).1⟩

/-! ## Definedness of the estimators -/

theorem seqOption_eq_some (l : List (Option ℚ)) (h : ∀ o ∈ l, o.isSome) :
    seqOption l = some (l.map (fun o => o.getD 0)) := by
  induction l with
  | nil => rfl
  | cons o os ih =>
      cases o with
      | none =>
          have := h none (List.mem_cons_self none os)
          simp at this
      | some q =>
          have hos := ih (fun o ho => h o (List.mem_cons_of_mem _ ho))
          simp [seqOption, hos]

theorem seqOption_eq_none (l : List (Option ℚ)) (h : none ∈ l) : seqOption l = none := by
  induction l with
  | nil => simp at h
  | cons o os ih =>
      cases o with
      | none => rfl
      | some q =>
          rcases List.mem_cons.mp h with hq | hos
          · exact absurd hq.symm (by simp)
          · simp [seqOption, ih hos]

/-- The mean (or median) estimator yields a value exactly on nonempty,
fully present substrate sets. -/
theorem kseaEst_isSome (median : Bool) (l : List (Option ℚ)) (h : ∀ o ∈ l, o.isSome)
    (hne : l ≠ []) : (kseaEst median l).isSome := by
  have hs := seqOption_eq_some l h
  cases l with
  | nil => exact absurd rfl hne
  | cons o os =>
      cases median with
      | false =>
          simp only [kseaEst, Bool.false_eq_true, if_neg, npMean, hs, List.map_cons]
          simp
      | true =>
          simp only [kseaEst, if_pos, npMedian, hs, List.map_cons]
          split <;> simp

/-- The mean (or median) estimator is NaN on a substrate set with a missing
value. -/
theorem kseaEst_none (median : Bool) (l : List (Option ℚ)) (h : none ∈ l) :
    kseaEst median l = none := by
  have hs := seqOption_eq_none l h
  cases median with
  | false => simp [kseaEst, npMean, hs]
  | true => simp [kseaEst, npMedian, hs]

/-- Sites in a qualifying substrate set are observed sites. -/
theorem mem_intersectK (data : Series) (G : Interactions) (k s : String)
    (h : s ∈ intersectK data G k) : s ∈ G.sites ∧ wNZ (G.w k s) ∧ data.idx.contains s := by
  rcases List.mem_filter.mp h with ⟨h1, h2⟩
  rcases Bool.and_eq_true_iff.mp h2 with ⟨h3, h4⟩
  exact ⟨h1, h3, h4⟩

/-- Under fully present observation data, `ksea_mean` scores are defined for
every qualifying kinase. -/
theorem kseaScore_isSome (data : Series) (G : Interactions) (median : Bool) (k : String)
    (hdef : ∀ s ∈ data.idx, (data.val s).isSome)
    (hne : intersectK data G k ≠ []) :
    (kseaScore data G median k).isSome := by
  apply kseaEst_isSome
  · intro o ho
    rcases List.mem_map.mp ho with ⟨s, hs, rfl⟩
    rcases mem_intersectK data G k s hs with ⟨-, -, hc⟩
    have hmem : s ∈ data.idx := by simpa using hc
    simp only [Series.get, hc, if_true]
    exact hdef s hmem
  · simpa using hne

/-- The `weighted_mean` column-filter count is the size of the qualifying
substrate set of the kinase. -/
theorem wm_count_eq_intersect (data : Series) (G : Interactions) (k : String) :
    (obsRows data G).countP (fun s => wNZ (G.w k s)) = (intersectK data G k).length := by
  unfold obsRows intersectK
  rw [List.countP_filter, ← List.countP_eq_length_filter]

/-- The reduced substrate set of `ksea_mean_alt` carries only present values,
so its score is defined exactly when it is nonempty. -/
theorem kseaAltScore_isSome_iff (data pvs : Series) (G : Interactions) (cutoff : ℚ)
    (median : Bool) (k : String) :
    (kseaAltScore data pvs G cutoff median k).isSome ↔
      reducedSet data pvs G cutoff k ≠ [] := by
  constructor
  · intro h hcon
    rw [kseaAltScore, hcon] at h
    cases median with
    | false => simp [kseaEst, npMean, seqOption] at h
    | true => simp [kseaEst, npMedian, seqOption] at h
  · intro hne
    apply kseaEst_isSome
    · intro o ho
      rcases List.mem_map.mp ho with ⟨s, hs, rfl⟩
      rcases List.mem_filter.mp hs with ⟨-, h2⟩
      exact (Bool.and_eq_true_iff.mp h2).2
    · simpa using hne

/-- C4 amended: membership in the output key set, per entry point.  The
ksea.py entry points retain a kinase only if its qualifying substrate set is
strictly larger than the minimum set size: for the mean/median estimator this
is exact under fully present observation data (the hypothesis scopes only
that conjunct), for `ksea_delta` it is exact unconditionally, and
`ksea_mean_alt` additionally requires a nonempty significant reduced set;
`weighted_mean` retains a kinase exactly when the set size is at or above the
minimum, unconditionally. -/
theorem claim_C4_amended (data pvs : Series) (G : Interactions) (mP delta cutoff : ℚ)
    (ms : ℕ) (median : Bool) (sf : ℚ → ℚ → ℚ) :
    ((∀ s ∈ data.idx, (data.val s).isSome) →
      ∀ k, k ∈ (ksea_mean data G mP delta ms median sf).1.map (·.1) ↔
        (k ∈ G.kinases ∧ ms < (intersectK data G k).length)) ∧
    (∀ k, k ∈ (ksea_delta data pvs G cutoff ms).1.map (·.1) ↔
      (k ∈ G.kinases ∧ ms < (intersectK data G k).length)) ∧
    (∀ k, k ∈ (ksea_mean_alt data pvs G mP delta cutoff ms median sf).1.map (·.1) ↔
      (k ∈ G.kinases ∧ ms < (intersectK data G k).length ∧
        reducedSet data pvs G cutoff k ≠ [])) ∧
    (∀ k, k ∈ (weighted_mean data G mP delta ms sf).1.map (·.1) ↔
      (k ∈ G.kinases ∧ ms ≤ (intersectK data G k).length)) := by
  refine ⟨?_, ?_, ?_, ?_⟩
  · intro hdef k
    rw [keys_ksea_mean_scores]
    constructor
    · intro h
      rcases List.mem_filter.mp h with ⟨h1, -⟩
      rcases List.mem_filter.mp h1 with ⟨h2, h3⟩
      exact ⟨h2, by simpa using h3⟩
    · rintro ⟨h1, h2⟩
      apply List.mem_filter.mpr
      refine ⟨List.mem_filter.mpr ⟨h1, by simpa using h2⟩, ?_⟩
      apply kseaScore_isSome data G median k hdef
      intro hcon
      rw [hcon] at h2
      simp at h2
  · intro k
    rw [(keys_ksea_delta data pvs G cutoff ms).1]
    unfold kseaKinases
    constructor
    · intro h
      rcases List.mem_filter.mp h with ⟨h1, h2⟩
      exact ⟨h1, by simpa using h2⟩
    · rintro ⟨h1, h2⟩
      exact List.mem_filter.mpr ⟨h1, by simpa using h2⟩
  · intro k
    rw [keys_ksea_alt_scores]
    constructor
    · intro h
      rcases List.mem_filter.mp h with ⟨h1, hsome⟩
      rcases List.mem_filter.mp h1 with ⟨h2, h3⟩
      exact ⟨h2, by simpa using h3,
        (kseaAltScore_isSome_iff data pvs G cutoff median k).mp hsome⟩
    · rintro ⟨h1, h2, h3⟩
      apply List.mem_filter.mpr
      refine ⟨List.mem_filter.mpr ⟨h1, by simpa using h2⟩, ?_⟩
      exact (kseaAltScore_isSome_iff data pvs G cutoff median k).mpr h3
  · intro k
    rw [(keys_weighted_mean data G mP delta ms sf).1]
    unfold wmKinases
    constructor
    · intro h
      rcases List.mem_filter.mp h with ⟨h1, h2⟩
      rw [wm_count_eq_intersect] at h2
      exact ⟨h1, by simpa using h2⟩
    · rintro ⟨h1, h2⟩
      apply List.mem_filter.mpr
      refine ⟨h1, ?_⟩
      rw [wm_count_eq_intersect]
      simpa using h2

/-- C4 counterexample: with minimum set size 1, the kinase `K` whose
qualifying substrate set has size exactly 1 (at or above the minimum) is
dropped by `ksea_mean`, because ksea.py filters with strict `>`; the second
kinase `K2` (set size 2) survives, so the call completes and returns
mappings keyed by `K2` alone. -/
theorem claim_C4_counterexample :
    (intersectK ⟨["s1", "s2"], fun _ => some 1⟩
      ⟨["s1", "s2"], ["K", "K2"],
        fun k s => if k = "K" then (if s = "s1" then some 1 else none) else some 1⟩
      "K").length = 1 ∧
    ((ksea_mean ⟨["s1", "s2"], fun _ => some 1⟩
      ⟨["s1", "s2"], ["K", "K2"],
        fun k s => if k = "K" then (if s = "s1" then some 1 else none) else some 1⟩
      0 1 1 false (fun _ _ => 0)).1.map (·.1) = ["K2"]) ∧
    ((ksea_mean ⟨["s1", "s2"], fun _ => some 1⟩
      ⟨["s1", "s2"], ["K", "K2"],
        fun k s => if k = "K" then (if s = "s1" then some 1 else none) else some 1⟩
      0 1 1 false (fun _ _ => 0)).2.map (·.1) = ["K2"]) := by
  refine ⟨by decide, ?_, ?_⟩
  · norm_num +decide [ksea_mean, kseaScoresList, kseaKinases, kseaScore, kseaEst, npMean,
      intersectK, seqOption, Series.get, wNZ, List.filter_cons, List.filter_nil,
      List.filterMap_cons, List.filterMap_nil]
  · norm_num +decide [ksea_mean, kseaRawP, kseaZPairs, kseaKinases, kseaZ, kseaScore,
      kseaEst, npMean, intersectK, seqOption, Series.get, wNZ, zdiv, ZVal.zabs, zsf,
      adjustPairs, bhAdjust, withIdx, sortBy, insertBy, accMinRev, nmin, nmulPos, ngt1,
      NVal.leB, List.filter_cons, List.filter_nil, List.filterMap_cons, List.filterMap_nil]

/-- C4 witness: the amended characterization applied at a concrete input. -/
theorem claim_C4_amended_witness :
    (∀ s ∈ (Series.mk ["s1"] (fun _ => some 1)).idx,
      ((Series.mk ["s1"] (fun _ => some 1)).val s).isSome) ∧
    (∀ k, k ∈ (ksea_mean ⟨["s1"], fun _ => some 1⟩ ⟨["s1"], ["K"], fun _ _ => some 1⟩
        0 1 0 false (fun _ _ => 0)).1.map (·.1) ↔
      (k ∈ (Interactions.mk ["s1"] ["K"] (fun _ _ => some 1)).kinases ∧
        0 < (intersectK ⟨["s1"], fun _ => some 1⟩ ⟨["s1"], ["K"], fun _ _ => some 1⟩
          k).length)) :=
  ⟨by decide, (claim_C4_amended ⟨["s1"], fun _ => some 1⟩ ⟨["s1"], fun _ => some 1⟩
    ⟨["s1"], ["K"], fun _ _ => some 1⟩ 0 1 1 0 false (fun _ _ => 0)).1 (by decide)⟩

/-! ## Empty inputs (C9) -/

/-- C10: For the mean/median estimator, a qualifying kinase one of whose
substrate sites carries a missing observation value is silently absent from
both returned mappings: the NaN mean is dropped by `dropna` from the scores
and the NaN z-statistic is dropped before the p-values are computed. -/
theorem claim_C10_missing_value_drops_kinase (data : Series) (G : Interactions)
    (mP delta : ℚ) (ms : ℕ) (median : Bool) (sf : ℚ → ℚ → ℚ) (k : String)
    (hq : ms < (intersectK data G k).length)
    (hmiss : ∃ s ∈ intersectK data G k, data.get s = none) :
    k ∉ (ksea_mean data G mP delta ms median sf).1.map (·.1) ∧
    k ∉ (ksea_mean data G mP delta ms median sf).2.map (·.1) := by
  rcases hmiss with ⟨s, hs, hnone⟩
  have hscore : kseaScore data G median k = none := by
    apply kseaEst_none
    rw [← hnone]
    exact List.mem_map.mpr ⟨s, hs, rfl⟩
  constructor
  · rw [keys_ksea_mean_scores]
    intro hmem
    rcases List.mem_filter.mp hmem with ⟨-, h2⟩
    rw [hscore] at h2
    simp at h2
  · rw [keys_ksea_mean_padj]
    intro hmem
    rcases List.mem_filter.mp hmem with ⟨-, h2⟩
    rw [kseaZ, hscore] at h2
    simp at h2

/-- C10 witness: the theorem applied at a concrete input with one missing
observation value. -/
theorem claim_C10_witness :
    (1 < (intersectK ⟨["s1", "s2"], fun s => if s = "s1" then some 1 else none⟩
      ⟨["s1", "s2"], ["K"], fun _ _ => some 1⟩ "K").length) ∧
    (∃ s ∈ intersectK ⟨["s1", "s2"], fun s => if s = "s1" then some 1 else none⟩
      ⟨["s1", "s2"], ["K"], fun _ _ => some 1⟩ "K",
      Series.get ⟨["s1", "s2"], fun s => if s = "s1" then some 1 else none⟩ s = none) ∧
    ("K" ∉ (ksea_mean ⟨["s1", "s2"], fun s => if s = "s1" then some 1 else none⟩
      ⟨["s1", "s2"], ["K"], fun _ _ => some 1⟩ 0 1 1 false (fun _ _ => 0)).1.map (·.1)) :=
  ⟨by decide, by decide,
    (claim_C10_missing_value_drops_kinase
      ⟨["s1", "s2"], fun s => if s = "s1" then some 1 else none⟩
      ⟨["s1", "s2"], ["K"], fun _ _ => some 1⟩ 0 1 1 false (fun _ _ => 0) "K"
      (by decide) (by decide)).1⟩

/-! ## Degenerate global statistics are propagated, not signalled (C6) -/

/-- C6 amended: no error is signalled for degenerate global statistics.  With
a zero standard deviation the z-test entry points run to completion: a kinase
whose score differs from `mP` gets the z-statistic `+inf` (after the absolute
value), its raw p-value is `sf(+inf) = 0`, and it stays in the adjusted
p-value mapping.  In the hypergeometric regime, a kinase whose qualifying set
is larger than the `dropna`-reduced population gets a NaN raw p-value (scipy
returns NaN for inconsistent parameters) which stays in the mapping. -/
theorem claim_C6_amended (data dataH pvsH : Series) (G GH : Interactions)
    (mP cutoff : ℚ) (ms msH : ℕ) (median : Bool) (sf : ℚ → ℚ → ℚ) (k kH : String)
    (hk : k ∈ kseaKinases data G ms) (m : ℚ)
    (hm : kseaScore data G median k = some m) (hne : m ≠ mP)
    (hkH : kH ∈ kseaKinases dataH GH msH)
    (hpop : nTotal dataH < (intersectK dataH GH kH).length)
    (hsig : 0 < kSig dataH pvsH GH cutoff kH) :
    kseaZ data G mP 0 median k = ZVal.pinf ∧
    zsf sf (kseaZ data G mP 0 median k) = NVal.fin 0 ∧
    k ∈ (ksea_mean data G mP 0 ms median sf).2.map (·.1) ∧
    deltaP dataH pvsH GH cutoff kH = NVal.nan ∧
    kH ∈ (ksea_delta dataH pvsH GH cutoff msH).2.map (·.1) := by
  have hlen : (intersectK data G k).length ≠ 0 := by
    rcases List.mem_filter.mp hk with ⟨-, h2⟩
    intro hcon
    rw [hcon] at h2
    simp at h2
  have hz : kseaZ data G mP 0 median k = ZVal.pinf := by
    rw [kseaZ, hm]
    have hc : m - mP ≠ 0 := sub_ne_zero_of_ne hne
    have hr : ((intersectK data G k).length : ℚ) ≠ 0 := by
      exact_mod_cast hlen
    rcases lt_or_gt_of_ne hc with hneg | hpos
    · simp [zdiv, hc, hr, not_lt_of_gt hneg, ZVal.zabs]
    · simp [zdiv, hc, hr, hpos, ZVal.zabs]
  refine ⟨hz, by rw [hz]; rfl, ?_, ?_, ?_⟩
  · rw [keys_ksea_mean_padj]
    apply List.mem_filter.mpr
    refine ⟨hk, ?_⟩
    rw [hz]
    decide
  · rw [deltaP, if_pos hsig, hypergeomPmf, if_neg]
    intro hcon
    exact absurd hcon.1 (by omega)
  · exact ((keys_ksea_delta dataH pvsH GH cutoff msH).2).symm ▸ hkH

/-- C6 witness: the amended theorem applied at concrete inputs — `delta = 0`
with a kinase scoring 1 against `mP = 0`, and a hypergeometric population of
size 1 against a qualifying set of size 2. -/
theorem claim_C6_amended_witness :
    ("K" ∈ kseaKinases ⟨["s1"], fun _ => some 1⟩ ⟨["s1"], ["K"], fun _ _ => some 1⟩ 0) ∧
    (kseaScore ⟨["s1"], fun _ => some 1⟩ ⟨["s1"], ["K"], fun _ _ => some 1⟩ false "K"
      = some 1) ∧
    ((1 : ℚ) ≠ 0) ∧
    (nTotal ⟨["s1", "s2"], fun s => if s = "s1" then some 1 else none⟩ <
      (intersectK ⟨["s1", "s2"], fun s => if s = "s1" then some 1 else none⟩
        ⟨["s1", "s2"], ["K"], fun _ _ => some 1⟩ "K").length) ∧
    (0 < kSig ⟨["s1", "s2"], fun s => if s = "s1" then some 1 else none⟩
      ⟨["s1", "s2"], fun _ => some 1⟩ ⟨["s1", "s2"], ["K"], fun _ _ => some 1⟩ 0 "K") ∧
    (kseaZ ⟨["s1"], fun _ => some 1⟩ ⟨["s1"], ["K"], fun _ _ => some 1⟩ 0 0 false "K"
      = ZVal.pinf) ∧
    (deltaP ⟨["s1", "s2"], fun s => if s = "s1" then some 1 else none⟩
      ⟨["s1", "s2"], fun _ => some 1⟩ ⟨["s1", "s2"], ["K"], fun _ _ => some 1⟩ 0 "K"
      = NVal.nan) := by
  have h1 : "K" ∈ kseaKinases ⟨["s1"], fun _ => some 1⟩
      ⟨["s1"], ["K"], fun _ _ => some 1⟩ 0 := by decide
  have h2 : kseaScore ⟨["s1"], fun _ => some 1⟩ ⟨["s1"], ["K"], fun _ _ => some 1⟩
      false "K" = some 1 := by
    simp [kseaScore, kseaEst, npMean, intersectK, seqOption, Series.get, wNZ,
      List.filter_cons, List.filter_nil]
  have h4 : "K" ∈ kseaKinases ⟨["s1", "s2"], fun s => if s = "s1" then some 1 else none⟩
      ⟨["s1", "s2"], ["K"], fun _ _ => some 1⟩ 1 := by decide
  have h5 : nTotal ⟨["s1", "s2"], fun s => if s = "s1" then some 1 else none⟩ <
      (intersectK ⟨["s1", "s2"], fun s => if s = "s1" then some 1 else none⟩
        ⟨["s1", "s2"], ["K"], fun _ _ => some 1⟩ "K").length := by decide
  have h6 : 0 < kSig ⟨["s1", "s2"], fun s => if s = "s1" then some 1 else none⟩
      ⟨["s1", "s2"], fun _ => some 1⟩ ⟨["s1", "s2"], ["K"], fun _ _ => some 1⟩ 0 "K" := by
    decide
  have happ := claim_C6_amended ⟨["s1"], fun _ => some 1⟩
    ⟨["s1", "s2"], fun s => if s = "s1" then some 1 else none⟩
    ⟨["s1", "s2"], fun _ => some 1⟩ ⟨["s1"], ["K"], fun _ _ => some 1⟩
    ⟨["s1", "s2"], ["K"], fun _ _ => some 1⟩ 0 0 0 1 false (fun _ _ => 0) "K" "K"
    h1 1 h2 one_ne_zero h4 h5 h6
  exact ⟨h1, h2, one_ne_zero, h5, h6, happ.1, happ.2.2.2.1⟩

/-- C6 counterexample: with `delta = 0` the `ksea_mean` call does not abort:
it returns the kinase with its score and with adjusted p-value 0, silently
derived from an infinite z-statistic. -/
theorem claim_C6_counterexample :
    (kseaZ ⟨["s1"], fun _ => some 1⟩ ⟨["s1"], ["K"], fun _ _ => some 1⟩ 0 0 false "K"
      = ZVal.pinf) ∧
    ((ksea_mean ⟨["s1"], fun _ => some 1⟩ ⟨["s1"], ["K"], fun _ _ => some 1⟩ 0 0 0 false
      (fun _ _ => 0)).1 = [("K", 1)]) ∧
    ((ksea_mean ⟨["s1"], fun _ => some 1⟩ ⟨["s1"], ["K"], fun _ _ => some 1⟩ 0 0 0 false
      (fun _ _ => 0)).2 = [("K", NVal.fin 0)]) := by
  refine ⟨?_, ?_, ?_⟩
  · norm_num +decide [kseaZ, kseaScore, kseaEst, npMean, intersectK, seqOption, Series.get,
      wNZ, zdiv, ZVal.zabs, List.filter_cons, List.filter_nil]
  · norm_num +decide [ksea_mean, kseaScoresList, kseaKinases, kseaScore, kseaEst, npMean,
      intersectK, seqOption, Series.get, wNZ, List.filter_cons, List.filter_nil,
      List.filterMap_cons, List.filterMap_nil]
  · norm_num +decide [ksea_mean, kseaRawP, kseaZPairs, kseaKinases, kseaZ, kseaScore,
      kseaEst, npMean, intersectK, seqOption, Series.get, wNZ, zdiv, ZVal.zabs, zsf,
      adjustPairs, bhAdjust, withIdx, sortBy, insertBy, accMinRev, nmin, nmulPos, ngt1,
      NVal.leB, List.filter_cons, List.filter_nil, List.filterMap_cons, List.filterMap_nil]

/-! ## Zero weighted denominator (C7) -/

/-- C7 amended: a retained kinase with a zero weight-sum denominator gets an
undefined score (NaN for a zero numerator, a signed infinity otherwise) and
REMAINS in both output mappings of `weighted_mean`; no division fault
occurs. -/
theorem claim_C7_amended (data : Series) (G : Interactions) (mP delta : ℚ) (ms : ℕ)
    (sf : ℚ → ℚ → ℚ) (k : String) (hden : wmDen data G k = 0)
    (hk : k ∈ wmKinases data G ms) :
    (wmScore data G k = NVal.nan ∨ wmScore data G k = NVal.pinf ∨
      wmScore data G k = NVal.ninf) ∧
    k ∈ (weighted_mean data G mP delta ms sf).1.map (·.1) ∧
    k ∈ (weighted_mean data G mP delta ms sf).2.map (·.1) := by
  refine ⟨?_, ?_, ?_⟩
  · rw [wmScore, hden, ndiv]
    by_cases h0 : wmNum data G k = 0
    · simp [h0]
    · rcases lt_or_gt_of_ne h0 with hneg | hpos
      · simp [h0, not_lt_of_gt hneg]
      · simp [h0, hpos]
  · exact ((keys_weighted_mean data G mP delta ms sf).1).symm ▸ hk
  · exact ((keys_weighted_mean data G mP delta ms sf).2).symm ▸ hk

/-- C7 witness: the amended theorem applied to a kinase with weights `1` and
`-1` on two observed sites (denominator 0, numerator 1). -/
theorem claim_C7_amended_witness :
    (wmDen ⟨["s1", "s2"], fun s => if s = "s1" then some 2 else some 1⟩
      ⟨["s1", "s2"], ["K"], fun _ s => if s = "s1" then some 1 else some (-1)⟩ "K" = 0) ∧
    ("K" ∈ wmKinases ⟨["s1", "s2"], fun s => if s = "s1" then some 2 else some 1⟩
      ⟨["s1", "s2"], ["K"], fun _ s => if s = "s1" then some 1 else some (-1)⟩ 2) ∧
    ("K" ∈ (weighted_mean ⟨["s1", "s2"], fun s => if s = "s1" then some 2 else some 1⟩
      ⟨["s1", "s2"], ["K"], fun _ s => if s = "s1" then some 1 else some (-1)⟩ 0 1 2
      (fun _ _ => 0)).1.map (·.1)) := by
  have hden : wmDen ⟨["s1", "s2"], fun s => if s = "s1" then some 2 else some 1⟩
      ⟨["s1", "s2"], ["K"], fun _ s => if s = "s1" then some 1 else some (-1)⟩ "K" = 0 := by
    simp [wmDen, obsRows, List.filter_cons, List.filter_nil, List.filterMap_cons,
      List.filterMap_nil]
  have hk : "K" ∈ wmKinases ⟨["s1", "s2"], fun s => if s = "s1" then some 2 else some 1⟩
      ⟨["s1", "s2"], ["K"], fun _ s => if s = "s1" then some 1 else some (-1)⟩ 2 := by
    decide
  exact ⟨hden, hk,
    (claim_C7_amended ⟨["s1", "s2"], fun s => if s = "s1" then some 2 else some 1⟩
      ⟨["s1", "s2"], ["K"], fun _ s => if s = "s1" then some 1 else some (-1)⟩ 0 1 2
      (fun _ _ => 0) "K" hden hk).2.1⟩

/-- C7 counterexample: the zero-denominator kinase is NOT excluded — both
returned mappings still contain it (score `+inf`, adjusted p-value NaN). -/
theorem claim_C7_counterexample :
    ((weighted_mean ⟨["s1", "s2"], fun s => if s = "s1" then some 2 else some 1⟩
      ⟨["s1", "s2"], ["K"], fun _ s => if s = "s1" then some 1 else some (-1)⟩ 0 1 2
      (fun _ _ => 0)).1 = [("K", NVal.pinf)]) ∧
    ((weighted_mean ⟨["s1", "s2"], fun s => if s = "s1" then some 2 else some 1⟩
      ⟨["s1", "s2"], ["K"], fun _ s => if s = "s1" then some 1 else some (-1)⟩ 0 1 2
      (fun _ _ => 0)).2 = [("K", NVal.nan)]) := by
  constructor
  · norm_num +decide [weighted_mean, wmKinases, wmScore, wmNum, wmDen, obsRows, Series.get,
      ndiv, wNZ, List.filterMap_cons, List.filterMap_nil, List.filter_cons, List.filter_nil]
  · norm_num +decide [weighted_mean, wmRawP, wmKinases, wmScore, wmNum, wmDen, obsRows,
      Series.get, ndiv, wNZ, adjustPairs, bhAdjust, wmZ, zsf, zdiv, infDivZ, withIdx,
      sortBy, insertBy, accMinRev, nmin, nmulPos, ngt1, NVal.leB,
      List.filterMap_cons, List.filterMap_nil, List.filter_cons, List.filter_nil]

/-! ## The weighted-mean score (C2) -/

/-- C2 amended: the `weighted_mean` score of a retained kinase is the sum of
observation-value × weight over the observed sites divided by the SIGNED sum
of the present nonzero weights (not the sum of their absolute values), with
numpy division semantics; a kinase column is retained exactly when the number
of observed sites with a present nonzero weight is at or above the minimum
set size. -/
theorem claim_C2_amended (data : Series) (G : Interactions) (mP delta : ℚ) (ms : ℕ)
    (sf : ℚ → ℚ → ℚ) (k : String) (hk : k ∈ G.kinases) :
    ((weighted_mean data G mP delta ms sf).1.lookup k =
      if ms ≤ (intersectK data G k).length then
        some (ndiv (wmNum data G k) (wmDen data G k)) else none) ∧
    (wmDen data G k ≠ 0 →
      wmScore data G k = NVal.fin (wmNum data G k / wmDen data G k)) := by
  constructor
  · simp only [weighted_mean]
    rw [lookup_map_pair]
    by_cases hmem : ms ≤ (intersectK data G k).length
    · rw [if_pos hmem, if_pos, wmScore]
      apply List.mem_filter.mpr
      refine ⟨hk, ?_⟩
      rw [wm_count_eq_intersect]
      simpa using hmem
    · rw [if_neg hmem, if_neg]
      intro hcon
      rcases List.mem_filter.mp hcon with ⟨-, h2⟩
      rw [wm_count_eq_intersect] at h2
      exact hmem (by simpa using h2)
  · intro hden
    rw [wmScore, ndiv, if_neg hden]

/-- C2 witness: the amended theorem applied at a concrete input with weights
1 and -2 on two observed unit fold changes (score `(-1)/(-1) = 1`). -/
theorem claim_C2_amended_witness :
    ("K" ∈ (Interactions.mk ["s1", "s2"] ["K"]
      (fun _ s => if s = "s1" then some 1 else some (-2))).kinases) ∧
    ((weighted_mean ⟨["s1", "s2"], fun _ => some 1⟩
      ⟨["s1", "s2"], ["K"], fun _ s => if s = "s1" then some 1 else some (-2)⟩ 0 1 1
      (fun _ _ => 0)).1.lookup "K" =
      if 1 ≤ (intersectK ⟨["s1", "s2"], fun _ => some 1⟩
          ⟨["s1", "s2"], ["K"], fun _ s => if s = "s1" then some 1 else some (-2)⟩
          "K").length then
        some (ndiv (wmNum ⟨["s1", "s2"], fun _ => some 1⟩
            ⟨["s1", "s2"], ["K"], fun _ s => if s = "s1" then some 1 else some (-2)⟩ "K")
          (wmDen ⟨["s1", "s2"], fun _ => some 1⟩
            ⟨["s1", "s2"], ["K"], fun _ s => if s = "s1" then some 1 else some (-2)⟩ "K"))
      else none) :=
  ⟨by decide, (claim_C2_amended ⟨["s1", "s2"], fun _ => some 1⟩
    ⟨["s1", "s2"], ["K"], fun _ s => if s = "s1" then some 1 else some (-2)⟩ 0 1 1
    (fun _ _ => 0) "K" (by decide)).1⟩

/-- C2 counterexample: with weights 1 and -2 on two observed sites of fold
change 1, the code's score is `(1·1 + 1·(-2)) / (1 + (-2)) = 1`, while the
claimed formula divides by the sum of absolute weights `|1| + |-2| = 3` and
gives `-1/3`. -/
theorem claim_C2_counterexample :
    (wmNum ⟨["s1", "s2"], fun _ => some 1⟩
      ⟨["s1", "s2"], ["K"], fun _ s => if s = "s1" then some 1 else some (-2)⟩ "K"
      = -1) ∧
    (wmDen ⟨["s1", "s2"], fun _ => some 1⟩
      ⟨["s1", "s2"], ["K"], fun _ s => if s = "s1" then some 1 else some (-2)⟩ "K"
      = -1) ∧
    ((weighted_mean ⟨["s1", "s2"], fun _ => some 1⟩
      ⟨["s1", "s2"], ["K"], fun _ s => if s = "s1" then some 1 else some (-2)⟩ 0 1 1
      (fun _ _ => 0)).1 = [("K", NVal.fin 1)]) ∧
    (NVal.fin 1 ≠ NVal.fin ((-1) / (|(1 : ℚ)| + |(-2 : ℚ)|))) := by
  refine ⟨?_, ?_, ?_, ?_⟩
  · norm_num +decide [wmNum, obsRows, Series.get, List.filter_cons, List.filter_nil]
  · norm_num +decide [wmDen, obsRows, Series.get, List.filterMap_cons, List.filterMap_nil,
      List.filter_cons, List.filter_nil]
  · norm_num +decide [weighted_mean, wmKinases, wmScore, wmNum, wmDen, obsRows, Series.get,
      ndiv, wNZ, List.filterMap_cons, List.filterMap_nil, List.filter_cons, List.filter_nil]
  · intro hcon
    have : (1 : ℚ) = (-1) / (|(1 : ℚ)| + |(-2 : ℚ)|) := by
      injection hcon
    norm_num at this

/-! ## The hypergeometric raw p-value (C3) -/

/-- The count of significantly regulated qualifying sites never exceeds the
global count of significantly regulated sites over the graph index. -/
theorem kSig_le_nReg (data pvs : Series) (G : Interactions) (cutoff : ℚ) (k : String) :
    kSig data pvs G cutoff k ≤ nReg pvs G cutoff := by
  unfold kSig nReg intersectK
  rw [List.countP_filter, ← List.countP_eq_length_filter]
  apply List.countP_mono_left
  intro s _ h
  exact (Bool.and_eq_true_iff.mp h).1

/-- C3: For every kinase, the `ksea_delta` raw p-value is the hypergeometric
point probability mass with population `n_total = len(data_fc.dropna())`,
success-state count `len(intersect[kinase])` and draw count `n_reg`,
evaluated at the kinase's count of significantly regulated qualifying sites,
except that a zero count is forced to probability 1; and this raw p-value is
the one attached to every kinase of the output. -/
theorem claim_C3_delta_pvalue (data pvs : Series) (G : Interactions) (cutoff : ℚ)
    (ms : ℕ) (k : String)
    (hK : (intersectK data G k).length ≤ nTotal data)
    (hN : nReg pvs G cutoff ≤ nTotal data) :
    (deltaP data pvs G cutoff k =
      NVal.fin
        (if 0 < kSig data pvs G cutoff k then
          ((intersectK data G k).length.choose (kSig data pvs G cutoff k) *
            (nTotal data - (intersectK data G k).length).choose
              (nReg pvs G cutoff - kSig data pvs G cutoff k) : ℚ) /
            ((nTotal data).choose (nReg pvs G cutoff))
        else 1)) ∧
    ((deltaRawP data pvs G cutoff ms).lookup k =
      if k ∈ kseaKinases data G ms then some (deltaP data pvs G cutoff k) else none) := by
  constructor
  · by_cases hpos : 0 < kSig data pvs G cutoff k
    · rw [deltaP, if_pos hpos, hypergeomPmf, if_pos ⟨hK, hN⟩,
        if_pos (kSig_le_nReg data pvs G cutoff k), if_pos hpos]
    · rw [deltaP, if_neg hpos, if_neg hpos]
  · rw [deltaRawP, lookup_map_pair]

/-- C3 witness: the theorem applied at a concrete input (population 2, set
size 2, one significant site). -/
theorem claim_C3_witness :
    ((intersectK ⟨["s1", "s2"], fun _ => some 1⟩
      ⟨["s1", "s2"], ["K"], fun _ _ => some 1⟩ "K").length ≤
      nTotal ⟨["s1", "s2"], fun _ => some 1⟩) ∧
    (nReg ⟨["s1", "s2"], fun s => if s = "s1" then some 1 else none⟩
      ⟨["s1", "s2"], ["K"], fun _ _ => some 1⟩ 0 ≤
      nTotal ⟨["s1", "s2"], fun _ => some 1⟩) ∧
    (deltaP ⟨["s1", "s2"], fun _ => some 1⟩
      ⟨["s1", "s2"], fun s => if s = "s1" then some 1 else none⟩
      ⟨["s1", "s2"], ["K"], fun _ _ => some 1⟩ 0 "K" =
      NVal.fin
        (if 0 < kSig ⟨["s1", "s2"], fun _ => some 1⟩
            ⟨["s1", "s2"], fun s => if s = "s1" then some 1 else none⟩
            ⟨["s1", "s2"], ["K"], fun _ _ => some 1⟩ 0 "K" then
          ((intersectK ⟨["s1", "s2"], fun _ => some 1⟩
              ⟨["s1", "s2"], ["K"], fun _ _ => some 1⟩ "K").length.choose
              (kSig ⟨["s1", "s2"], fun _ => some 1⟩
                ⟨["s1", "s2"], fun s => if s = "s1" then some 1 else none⟩
                ⟨["s1", "s2"], ["K"], fun _ _ => some 1⟩ 0 "K") *
            (nTotal ⟨["s1", "s2"], fun _ => some 1⟩ -
              (intersectK ⟨["s1", "s2"], fun _ => some 1⟩
                ⟨["s1", "s2"], ["K"], fun _ _ => some 1⟩ "K").length).choose
              (nReg ⟨["s1", "s2"], fun s => if s = "s1" then some 1 else none⟩
                  ⟨["s1", "s2"], ["K"], fun _ _ => some 1⟩ 0 -
                kSig ⟨["s1", "s2"], fun _ => some 1⟩
                  ⟨["s1", "s2"], fun s => if s = "s1" then some 1 else none⟩
                  ⟨["s1", "s2"], ["K"], fun _ _ => some 1⟩ 0 "K") : ℚ) /
            ((nTotal ⟨["s1", "s2"], fun _ => some 1⟩).choose
              (nReg ⟨["s1", "s2"], fun s => if s = "s1" then some 1 else none⟩
                ⟨["s1", "s2"], ["K"], fun _ _ => some 1⟩ 0))
        else 1)) :=
  ⟨by decide, by decide,
    (claim_C3_delta_pvalue ⟨["s1", "s2"], fun _ => some 1⟩
      ⟨["s1", "s2"], fun s => if s = "s1" then some 1 else none⟩
      ⟨["s1", "s2"], ["K"], fun _ _ => some 1⟩ 0 1 "K" (by decide) (by decide)).1⟩

/-! ## The z-statistics and their p-values (C1) -/

/-- Every entry of the `ksea_mean` z-score Series is the z-statistic of its
kinase. -/
theorem mem_kseaZPairs (data : Series) (G : Interactions) (mP delta : ℚ) (ms : ℕ)
    (median : Bool) (p : String × ZVal)
    (hp : p ∈ kseaZPairs data G mP delta ms median) :
    p.2 = kseaZ data G mP delta median p.1 := by
  rcases List.mem_filter.mp hp with ⟨h1, -⟩
  rcases List.mem_map.mp h1 with ⟨k, -, rfl⟩
  rfl

/-- Every entry of the `ksea_mean_alt` z-score Series is the z-statistic of
its kinase. -/
theorem mem_altZPairs (data pvs : Series) (G : Interactions) (mP delta cutoff : ℚ)
    (ms : ℕ) (median : Bool) (p : String × ZVal)
    (hp : p ∈ altZPairs data pvs G mP delta cutoff ms median) :
    p.2 = kseaAltZ data pvs G mP delta cutoff median p.1 := by
  rcases List.mem_filter.mp hp with ⟨h1, -⟩
  rcases List.mem_map.mp h1 with ⟨k, -, rfl⟩
  rfl

/-- C1 amended, z-statistics: for the mean/median estimator the z-statistic
denotes `|(score − mP) · sqrt(set size) / delta|`; for `ksea_mean_alt` the
size under the square root is that of the reduced (significant) substrate
set; for `weighted_mean` there is NO absolute value — the z-statistic denotes
`(score − mP) · sqrt(|signed weight sum|) / delta` — and the radicand is the
absolute value of the signed weight sum, not the sum of absolute weights.
In each case the raw p-value Series applies the survival function to exactly
that z-statistic. -/
theorem claim_C1_amended (data pvs : Series) (G : Interactions) (mP delta cutoff : ℚ)
    (median : Bool) (sf : ℚ → ℚ → ℚ) (k : String) (ms : ℕ) (hd : delta ≠ 0) :
    (∀ m, kseaScore data G median k = some m →
      (kseaZ data G mP delta median k).toReal =
        |((m : ℝ) - (mP : ℝ)) * Real.sqrt ((intersectK data G k).length : ℝ) /
          (delta : ℝ)|) ∧
    (∀ m, kseaAltScore data pvs G cutoff median k = some m →
      (kseaAltZ data pvs G mP delta cutoff median k).toReal =
        |((m : ℝ) - (mP : ℝ)) * Real.sqrt ((reducedSet data pvs G cutoff k).length : ℝ) /
          (delta : ℝ)|) ∧
    (∀ s, wmScore data G k = NVal.fin s →
      (wmZ data G mP delta k).toReal =
        ((s : ℝ) - (mP : ℝ)) * Real.sqrt |(wmDen data G k : ℝ)| / (delta : ℝ)) ∧
    (∀ p ∈ kseaRawP data G mP delta ms median sf,
      p.2 = zsf sf (kseaZ data G mP delta median p.1)) ∧
    (∀ p ∈ altRawP data pvs G mP delta cutoff ms median sf,
      p.2 = zsf sf (kseaAltZ data pvs G mP delta cutoff median p.1)) ∧
    (∀ p ∈ wmRawP data G mP delta ms sf, p.2 = zsf sf (wmZ data G mP delta p.1)) := by
  refine ⟨?_, ?_, ?_, ?_, ?_, ?_⟩
  · intro m hm
    rw [kseaZ, hm]
    simp only [zdiv, hd, if_false, if_neg hd, ZVal.zabs, ZVal.toReal]
    conv_rhs => rw [abs_div, abs_mul, abs_of_nonneg (Real.sqrt_nonneg _)]
    rw [Rat.cast_abs, Rat.cast_div, Rat.cast_sub, abs_div, Rat.cast_natCast]
    ring
  · intro m hm
    rw [kseaAltZ, hm]
    simp only [zdiv, hd, if_false, if_neg hd, ZVal.zabs, ZVal.toReal]
    conv_rhs => rw [abs_div, abs_mul, abs_of_nonneg (Real.sqrt_nonneg _)]
    rw [Rat.cast_abs, Rat.cast_div, Rat.cast_sub, abs_div, Rat.cast_natCast]
    ring
  · intro s hs
    rw [wmZ, hs]
    simp only [zdiv, hd, if_false, if_neg hd, ZVal.toReal]
    push_cast
    ring
  · intro p hp
    rcases List.mem_map.mp hp with ⟨q', hq', rfl⟩
    have := mem_kseaZPairs data G mP delta ms median q' hq'
    simp [this]
  · intro p hp
    rcases List.mem_map.mp hp with ⟨q', hq', rfl⟩
    have := mem_altZPairs data pvs G mP delta cutoff ms median q' hq'
    simp [this]
  · intro p hp
    rcases List.mem_map.mp hp with ⟨k', -, rfl⟩
    rfl

/-- C1 witness: the amended theorem applied at a concrete input (weighted
score `-6`, unit standard deviation). -/
theorem claim_C1_amended_witness :
    ((1 : ℚ) ≠ 0) ∧
    (wmScore ⟨["s1", "s2"], fun s => if s = "s1" then some 1 else some 8⟩
      ⟨["s1", "s2"], ["K"], fun _ s => if s = "s1" then some 2 else some (-1)⟩ "K"
      = NVal.fin (-6)) ∧
    ((wmZ ⟨["s1", "s2"], fun s => if s = "s1" then some 1 else some 8⟩
        ⟨["s1", "s2"], ["K"], fun _ s => if s = "s1" then some 2 else some (-1)⟩ 0 1
        "K").toReal =
      (((-6 : ℚ) : ℝ) - ((0 : ℚ) : ℝ)) *
        Real.sqrt |((wmDen ⟨["s1", "s2"], fun s => if s = "s1" then some 1 else some 8⟩
          ⟨["s1", "s2"], ["K"], fun _ s => if s = "s1" then some 2 else some (-1)⟩
          "K" : ℚ) : ℝ)| / ((1 : ℚ) : ℝ)) := by
  have hsc : wmScore ⟨["s1", "s2"], fun s => if s = "s1" then some 1 else some 8⟩
      ⟨["s1", "s2"], ["K"], fun _ s => if s = "s1" then some 2 else some (-1)⟩ "K"
      = NVal.fin (-6) := by
    norm_num +decide [wmScore, wmNum, wmDen, obsRows, Series.get, ndiv,
      List.filterMap_cons, List.filterMap_nil, List.filter_cons, List.filter_nil]
  exact ⟨one_ne_zero, hsc,
    (claim_C1_amended ⟨["s1", "s2"], fun s => if s = "s1" then some 1 else some 8⟩
      ⟨["s1", "s2"], fun _ => none⟩
      ⟨["s1", "s2"], ["K"], fun _ s => if s = "s1" then some 2 else some (-1)⟩ 0 1 0 false
      (fun _ _ => 0) "K" 0 one_ne_zero).2.2.1 (-6) hsc⟩

/-- C1 counterexample: for `weighted_mean` with weights `2` and `-1` on unit
and eight-fold observations (`score = -6`, `mP = 0`, `delta = 1`), the code's
z-statistic denotes `-6` (no absolute value, radicand `|2 + (-1)| = 1`),
which differs from the claimed `|(-6 - 0) · sqrt(|2| + |-1|) / 1|`. -/
theorem claim_C1_counterexample :
    (wmScore ⟨["s1", "s2"], fun s => if s = "s1" then some 1 else some 8⟩
      ⟨["s1", "s2"], ["K"], fun _ s => if s = "s1" then some 2 else some (-1)⟩ "K"
      = NVal.fin (-6)) ∧
    (wmZ ⟨["s1", "s2"], fun s => if s = "s1" then some 1 else some 8⟩
      ⟨["s1", "s2"], ["K"], fun _ s => if s = "s1" then some 2 else some (-1)⟩ 0 1 "K"
      = ZVal.fin (-6) 1) ∧
    ((wmZ ⟨["s1", "s2"], fun s => if s = "s1" then some 1 else some 8⟩
        ⟨["s1", "s2"], ["K"], fun _ s => if s = "s1" then some 2 else some (-1)⟩ 0 1
        "K").toReal ≠
      |((-6 : ℝ) - 0) * Real.sqrt (|(2 : ℝ)| + |(-1 : ℝ)|) / 1|) := by
  have hsc : wmScore ⟨["s1", "s2"], fun s => if s = "s1" then some 1 else some 8⟩
      ⟨["s1", "s2"], ["K"], fun _ s => if s = "s1" then some 2 else some (-1)⟩ "K"
      = NVal.fin (-6) := by
    norm_num +decide [wmScore, wmNum, wmDen, obsRows, Series.get, ndiv,
      List.filterMap_cons, List.filterMap_nil, List.filter_cons, List.filter_nil]
  have hz : wmZ ⟨["s1", "s2"], fun s => if s = "s1" then some 1 else some 8⟩
      ⟨["s1", "s2"], ["K"], fun _ s => if s = "s1" then some 2 else some (-1)⟩ 0 1 "K"
      = ZVal.fin (-6) 1 := by
    rw [wmZ, hsc]
    norm_num +decide [wmDen, obsRows, Series.get, zdiv,
      List.filterMap_cons, List.filterMap_nil, List.filter_cons, List.filter_nil]
  refine ⟨hsc, hz, ?_⟩
  rw [hz]
  have hval : (ZVal.fin (-6 : ℚ) (1 : ℚ)).toReal = -6 := by
    simp [ZVal.toReal, Real.sqrt_one]
  rw [hval]
  intro hcon
  have := abs_nonneg (((-6 : ℝ) - 0) * Real.sqrt (|(2 : ℝ)| + |(-1 : ℝ)|) / 1)
  rw [← hcon] at this
  linarith

/-! ## Weighted mean with unit weights degenerates to the mean (C8) -/

theorem seqOption_some_inv (l : List (Option ℚ)) (vs : List ℚ)
    (h : seqOption l = some vs) :
    (∀ o ∈ l, o.isSome) ∧ vs = l.map (fun o => o.getD 0) := by
  induction l generalizing vs with
  | nil =>
      simp only [seqOption] at h
      injection h with h
      subst h
      simp
  | cons o os ih =>
      cases o with
      | none => simp [seqOption] at h
      | some q =>
          simp only [seqOption] at h
          cases hos : seqOption os with
          | none => rw [hos] at h; simp at h
          | some vs' =>
              rw [hos] at h
              simp only [Option.map_some'] at h
              injection h with h
              subst h
              rcases ih vs' hos with ⟨hall, hvs⟩
              refine ⟨?_, by simp [hvs]⟩
              intro o ho
              rcases List.mem_cons.mp ho with rfl | ho
              · simp
              · exact hall o ho

theorem npMean_eq_some (l : List (Option ℚ)) (q : ℚ) (h : npMean l = some q) :
    ∃ vs, seqOption l = some vs ∧ vs ≠ [] ∧ q = vs.sum / vs.length := by
  unfold npMean at h
  cases hseq : seqOption l with
  | none => rw [hseq] at h; simp at h
  | some vs =>
      rw [hseq] at h
      cases vs with
      | nil => simp at h
      | cons v rest =>
          refine ⟨v :: rest, rfl, by simp, ?_⟩
          injection h with h
          exact h.symm

/-- The qualifying substrate set is the weight-filtered list of observed
rows. -/
theorem intersectK_eq_filter_obsRows (data : Series) (G : Interactions) (k : String) :
    intersectK data G k = (obsRows data G).filter (fun s => wNZ (G.w k s)) := by
  unfold intersectK obsRows
  rw [List.filter_filter]

/-- With unit weights, the `weighted_mean` denominator is the size of the
qualifying substrate set. -/
theorem wmDen_unit_weights (data : Series) (G : Interactions) (k : String)
    (hwk : ∀ s, G.w k s = none ∨ G.w k s = some 1) :
    wmDen data G k = ((intersectK data G k).length : ℚ) := by
  rw [intersectK_eq_filter_obsRows]
  unfold wmDen
  generalize obsRows data G = L
  induction L with
  | nil => simp
  | cons a as ih =>
      rcases hwk a with hna | hsa
      · simp [List.filterMap_cons, List.filter_cons, hna, wNZ, ih]
      · have h1 : wNZ (some (1 : ℚ)) = true := by simp [wNZ]
        simp [List.filterMap_cons, List.filter_cons, hsa, h1, ih, List.length_cons]
        ring

/-- With unit weights, the `weighted_mean` numerator is the sum of the present
observation values over the qualifying substrate set. -/
theorem wmNum_unit_weights (data : Series) (G : Interactions) (k : String)
    (hwk : ∀ s, G.w k s = none ∨ G.w k s = some 1) :
    wmNum data G k =
      ((intersectK data G k).map (fun s => (data.get s).getD 0)).sum := by
  rw [intersectK_eq_filter_obsRows]
  unfold wmNum
  generalize obsRows data G = L
  induction L with
  | nil => simp
  | cons a as ih =>
      rcases hwk a with hna | hsa
      · simp [List.filter_cons, hna, wNZ, ih]
      · have h1 : wNZ (some (1 : ℚ)) = true := by simp [wNZ]
        simp only [List.map_cons, List.sum_cons, List.filter_cons, hsa, h1, if_true]
        rw [ih]
        cases hga : data.get a with
        | none => simp [hga]
        | some v => simp [hga]

/-- C8: when every present interaction weight is 1, a kinase appearing in both
the `ksea_mean` (mean, `median = False`) output and the `weighted_mean` output
has the same score in both. -/
theorem claim_C8_unit_weights (data : Series) (G : Interactions) (mP delta : ℚ)
    (ms : ℕ) (sf sfw : ℚ → ℚ → ℚ) (k : String) (q : ℚ)
    (hw : ∀ k' s, G.w k' s = none ∨ G.w k' s = some 1)
    (h1 : (ksea_mean data G mP delta ms false sf).1.lookup k = some q)
    (h2 : k ∈ (weighted_mean data G mP delta ms sfw).1.map (·.1)) :
    (weighted_mean data G mP delta ms sfw).1.lookup k = some (NVal.fin q) := by
  simp only [ksea_mean, kseaScoresList] at h1
  rw [lookup_filterMap_pair] at h1
  by_cases hkin : k ∈ kseaKinases data G ms
  swap
  · rw [if_neg hkin] at h1
    exact absurd h1 (by simp)
  rw [if_pos hkin] at h1
  have hscore : npMean ((intersectK data G k).map data.get) = some q := by
    have : kseaScore data G false k = some q := h1
    simpa [kseaScore, kseaEst] using this
  obtain ⟨vs, hseq, hne, hq⟩ := npMean_eq_some _ _ hscore
  obtain ⟨-, hvs⟩ := seqOption_some_inv _ _ hseq
  have hvs' : vs = (intersectK data G k).map (fun s => (data.get s).getD 0) := by
    rw [hvs, List.map_map]
    rfl
  have hlen : vs.length = (intersectK data G k).length := by
    rw [hvs']
    simp
  have hnum : wmNum data G k = vs.sum := by
    rw [wmNum_unit_weights data G k (hw k), hvs']
  have hden : wmDen data G k = (vs.length : ℚ) := by
    rw [wmDen_unit_weights data G k (hw k), hlen]
  have hlq : ((vs.length : ℚ)) ≠ 0 := by
    have : vs.length ≠ 0 := by
      intro hcon
      exact hne (List.length_eq_zero.mp hcon)
    exact_mod_cast this
  have hwm : wmScore data G k = NVal.fin q := by
    rw [wmScore, hnum, hden, ndiv, if_neg hlq, hq]
  rw [(keys_weighted_mean data G mP delta ms sfw).1] at h2
  simp only [weighted_mean]
  rw [lookup_map_pair, if_pos h2, hwm]

/-- C8 witness: the theorem applied at a concrete input (one observed site of
fold change 1, unit weight, minimum set size 0). -/
theorem claim_C8_witness :
    ((ksea_mean ⟨["s1"], fun _ => some 1⟩ ⟨["s1"], ["K"], fun _ _ => some 1⟩ 0 1 0 false
      (fun _ _ => 0)).1.lookup "K" = some 1) ∧
    ("K" ∈ (weighted_mean ⟨["s1"], fun _ => some 1⟩ ⟨["s1"], ["K"], fun _ _ => some 1⟩
      0 1 0 (fun _ _ => 0)).1.map (·.1)) ∧
    ((weighted_mean ⟨["s1"], fun _ => some 1⟩ ⟨["s1"], ["K"], fun _ _ => some 1⟩ 0 1 0
      (fun _ _ => 0)).1.lookup "K" = some (NVal.fin 1)) := by
  have h1 : (ksea_mean ⟨["s1"], fun _ => some 1⟩ ⟨["s1"], ["K"], fun _ _ => some 1⟩ 0 1 0
      false (fun _ _ => 0)).1.lookup "K" = some 1 := by
    simp [ksea_mean, kseaScoresList, kseaKinases, kseaScore, kseaEst, npMean, intersectK,
      seqOption, Series.get, wNZ, List.filter_cons, List.filter_nil, List.filterMap_cons,
      List.filterMap_nil, List.lookup_cons]
  have h2 : "K" ∈ (weighted_mean ⟨["s1"], fun _ => some 1⟩
      ⟨["s1"], ["K"], fun _ _ => some 1⟩ 0 1 0 (fun _ _ => 0)).1.map (·.1) := by
    decide
  exact ⟨h1, h2, claim_C8_unit_weights ⟨["s1"], fun _ => some 1⟩
    ⟨["s1"], ["K"], fun _ _ => some 1⟩ 0 1 0 (fun _ _ => 0) (fun _ _ => 0) "K" 1
    (fun _ _ => Or.inr rfl) h1 h2⟩

end Kinact
